import Mathlib

/-!
# Verification of the Elydora Node SDK operation-signing pipeline

This file is a shallow embedding, in Lean 4, of the core of the
`@elydora/sdk` TypeScript sources: the JCS canonicaliser, the SHA-256 /
base64url hashing helpers, the chain-hash computation, the Ed25519
key-import front end, the UUIDv7 generator, the `ElydoraClient` operation
builder (`createOperation`) and its HTTP retry loop (`request` /
`handleResponse`).  Machine integers are modelled as `Nat` with explicit
reductions modulo `2 ^ 32` where the source relies on 32-bit wraparound;
JavaScript values are modelled by an explicit `Json` inductive type;
nondeterministic inputs (clock, randomness) are passed explicitly.
-/

namespace Elydora

/-! ## Bytes, SHA-256, base64url, UTF-8 (src/crypto.ts, src/utils.ts)

`sha256Base64url` in the source delegates to Node's
`crypto.createHash('sha256')` and `Buffer.prototype.toString('base64url')`.
Those primitives are modelled here by an executable FIPS 180-4 SHA-256 over
byte lists and an RFC 4648 §5 base64url encoder without padding. -/

/-- Truncate to a 32-bit word. -/
def w32 (n : Nat) : Nat := n % 4294967296

/-- 32-bit right rotation. -/
def rotr32 (r x : Nat) : Nat := w32 ((x >>> r) ||| (x <<< (32 - r)))

/-- Bitwise complement on 32-bit words. -/
def not32 (x : Nat) : Nat := x ^^^ 4294967295

/-- SHA-256 round constants. -/
def shaK : List Nat :=
  [1116352408, 1899447441, 3049323471, 3921009573, 961987163, 1508970993,
   2453635748, 2870763221, 3624381080, 310598401, 607225278, 1426881987,
   1925078388, 2162078206, 2614888103, 3248222580, 3835390401, 4022224774,
   264347078, 604807628, 770255983, 1249150122, 1555081692, 1996064986,
   2554220882, 2821834349, 2952996808, 3210313671, 3336571891, 3584528711,
   113926993, 338241895, 666307205, 773529912, 1294757372, 1396182291,
   1695183700, 1986661051, 2177026350, 2456956037, 2730485921, 2820302411,
   3259730800, 3345764771, 3516065817, 3600352804, 4094571909, 275423344,
   430227734, 506948616, 659060556, 883997877, 958139571, 1322822218,
   1537002063, 1747873779, 1955562222, 2024104815, 2227730452, 2361852424,
   2428436474, 2756734187, 3204031479, 3329325298]

/-- SHA-256 initial hash state. -/
def shaH0 : List Nat :=
  [1779033703, 3144134277, 1013904242, 2773480762,
   1359893119, 2600822924, 528734635, 1541459225]

/-- Pack bytes into big-endian 32-bit words. -/
def bytesToWords : List Nat → List Nat
  | b0 :: b1 :: b2 :: b3 :: rest =>
      ((b0 <<< 24) ||| (b1 <<< 16) ||| (b2 <<< 8) ||| b3) :: bytesToWords rest
  | _ => []

/-- Small sigma-0 message-schedule function. -/
def ssig0 (x : Nat) : Nat := rotr32 7 x ^^^ rotr32 18 x ^^^ (x >>> 3)

/-- Small sigma-1 message-schedule function. -/
def ssig1 (x : Nat) : Nat := rotr32 17 x ^^^ rotr32 19 x ^^^ (x >>> 10)

/-- One step of the message-schedule extension (`for i in 16..64` loop body). -/
def extendStep (w : List Nat) : List Nat :=
  w ++ [w32 (ssig1 (w.getD (w.length - 2) 0) + w.getD (w.length - 7) 0 +
             ssig0 (w.getD (w.length - 15) 0) + w.getD (w.length - 16) 0)]

/-- Iterate the schedule extension a fixed number of times. -/
def extendIter : Nat → List Nat → List Nat
  | 0, w => w
  | n + 1, w => extendIter n (extendStep w)

/-- Extend the 16-word message schedule to 64 words. -/
def extendSchedule (w : List Nat) : List Nat := extendIter 48 w

/-- One SHA-256 round: state is the register list `[a,b,c,d,e,f,g,h]`. -/
def shaRound (st : List Nat) (kw : Nat × Nat) : List Nat :=
  let a := st.getD 0 0
  let b := st.getD 1 0
  let c := st.getD 2 0
  let d := st.getD 3 0
  let e := st.getD 4 0
  let f := st.getD 5 0
  let g := st.getD 6 0
  let h := st.getD 7 0
  let s1 := rotr32 6 e ^^^ rotr32 11 e ^^^ rotr32 25 e
  let ch := (e &&& f) ^^^ (not32 e &&& g)
  let temp1 := w32 (h + s1 + ch + kw.1 + kw.2)
  let s0 := rotr32 2 a ^^^ rotr32 13 a ^^^ rotr32 22 a
  let maj := (a &&& b) ^^^ (a &&& c) ^^^ (b &&& c)
  let temp2 := w32 (s0 + maj)
  [w32 (temp1 + temp2), a, b, c, w32 (d + temp1), e, f, g]

/-- Compress one 64-byte block into the hash state. -/
def shaCompress (h : List Nat) (block : List Nat) : List Nat :=
  let w := extendSchedule (bytesToWords block)
  let st := (shaK.zip w).foldl shaRound h
  List.zipWith (fun a b => w32 (a + b)) h st

/-- Fold the compression function over consecutive 64-byte blocks.
The fuel argument bounds the number of blocks; it is structural so that the
kernel can evaluate the definition. -/
def shaBlocksFuel : Nat → List Nat → List Nat → List Nat
  | 0, h, _ => h
  | fuel + 1, h, msg =>
      if msg.length < 64 then h
      else shaBlocksFuel fuel (shaCompress h (msg.take 64)) (msg.drop 64)

/-- Process every 64-byte block of a (padded) message. -/
def shaBlocks (h : List Nat) (msg : List Nat) : List Nat :=
  shaBlocksFuel (msg.length / 64) h msg

/-- Big-endian 8-byte encoding of a natural number. -/
def be64 (n : Nat) : List Nat :=
  [(n >>> 56) % 256, (n >>> 48) % 256, (n >>> 40) % 256, (n >>> 32) % 256,
   (n >>> 24) % 256, (n >>> 16) % 256, (n >>> 8) % 256, n % 256]

/-- SHA-256 padding: append `0x80`, zeros, and the 64-bit bit length. -/
def shaPad (msg : List Nat) : List Nat :=
  let padLen := (64 - (msg.length + 9) % 64) % 64
  msg ++ 0x80 :: List.replicate padLen 0 ++ be64 (8 * msg.length)

/-- SHA-256 of a byte list, as a 32-byte digest. -/
def sha256 (msg : List Nat) : List Nat :=
  (shaBlocks shaH0 (shaPad msg)).foldr
    (fun x acc => (x >>> 24) % 256 :: (x >>> 16) % 256 :: (x >>> 8) % 256 :: x % 256 :: acc)
    []

/-- The base64url alphabet (RFC 4648 §5). -/
def b64Alphabet : List Char :=
  "ABCDEFGHIJKLMNOPQRSTUVWXYZabcdefghijklmnopqrstuvwxyz0123456789-_".toList

/-- Character for a 6-bit group. -/
def b64Char (n : Nat) : Char := b64Alphabet.getD n 'A'

/-- base64url encoding of a byte list, without padding
(models `Buffer.prototype.toString('base64url')`). -/
def base64urlEncodeChars : List Nat → List Char
  | b0 :: b1 :: b2 :: rest =>
      b64Char (b0 >>> 2) :: b64Char (((b0 % 4) <<< 4) ||| (b1 >>> 4)) ::
      b64Char (((b1 % 16) <<< 2) ||| (b2 >>> 6)) :: b64Char (b2 % 64) ::
      base64urlEncodeChars rest
  | [b0, b1] =>
      [b64Char (b0 >>> 2), b64Char (((b0 % 4) <<< 4) ||| (b1 >>> 4)),
       b64Char ((b1 % 16) <<< 2)]
  | [b0] => [b64Char (b0 >>> 2), b64Char ((b0 % 4) <<< 4)]
  | [] => []

/-- `base64urlEncode` from src/utils.ts. -/
def base64urlEncode (bytes : List Nat) : String :=
  String.mk (base64urlEncodeChars bytes)

/-- UTF-8 encoding of one scalar value. -/
def charUtf8 (c : Char) : List Nat :=
  let n := c.toNat
  if n < 0x80 then [n]
  else if n < 0x800 then [0xC0 ||| (n >>> 6), 0x80 ||| (n % 64)]
  else if n < 0x10000 then
    [0xE0 ||| (n >>> 12), 0x80 ||| ((n >>> 6) % 64), 0x80 ||| (n % 64)]
  else
    [0xF0 ||| (n >>> 18), 0x80 ||| ((n >>> 12) % 64),
     0x80 ||| ((n >>> 6) % 64), 0x80 ||| (n % 64)]

/-- UTF-8 encoding of a string (models `Buffer.from(s, 'utf-8')`). -/
def utf8Encode (s : String) : List Nat := (s.data.map charUtf8).flatten

/-- `sha256Base64url` from src/crypto.ts, restricted to string input. -/
def sha256Base64url (s : String) : String := base64urlEncode (sha256 (utf8Encode s))

/-- `ZERO_CHAIN_HASH` from src/crypto.ts:
base64url of the SHA-256 of 32 zero bytes (`Buffer.alloc(32, 0)`). -/
def ZERO_CHAIN_HASH : String := base64urlEncode (sha256 (List.replicate 32 0))

/-! ## JavaScript values and JCS canonicalization (src/crypto.ts)

`jcsCanonicalise` consumes arbitrary JSON-like JavaScript values.  They are
modelled by the mutual inductive family `Json` / `JsonList` / `JsonFields`
(a mutual family rather than a nested `List` so that the canonicaliser is
structurally recursive and kernel-evaluable).  A JavaScript number is carried
as its ES2015 `ToString` serialization when finite — `JSON.stringify` on a
finite number emits exactly that string — with the non-finite values
`NaN` / `Infinity` / `-Infinity` explicit. -/

/-- A JavaScript number as seen by `JSON.stringify`. -/
inductive JsNum where
  | finite (repr : String)
  | nan
  | inf
  | negInf
deriving DecidableEq, Repr

/-- `JSON.stringify` on a number: finite numbers print via ES2015 `ToString`;
`NaN` and the infinities are serialized as `null`. -/
def jsNumStringify : JsNum → String
  | .finite r => r
  | .nan => "null"
  | .inf => "null"
  | .negInf => "null"

mutual
/-- A JSON-like JavaScript value (`undefined` included, since the source's
object serialization tests `obj[key] !== undefined`). -/
inductive Json where
  | undef
  | null
  | bool (b : Bool)
  | num (n : JsNum)
  | str (s : String)
  | arr (elems : JsonList)
  | obj (fields : JsonFields)

inductive JsonList where
  | nil
  | cons (head : Json) (tail : JsonList)

inductive JsonFields where
  | nil
  | cons (key : String) (val : Json) (tail : JsonFields)
end

/-- Build a `JsonFields` from an ordinary association list. -/
def JsonFields.ofList : List (String × Json) → JsonFields
  | [] => .nil
  | (k, v) :: rest => .cons k v (JsonFields.ofList rest)

/-- Object construction from an association list (insertion order preserved). -/
def Json.objL (fields : List (String × Json)) : Json := .obj (JsonFields.ofList fields)

/-- Whether a value is JavaScript `undefined`. -/
def Json.isUndef : Json → Bool
  | .undef => true
  | _ => false

/-- Lowercase hexadecimal digit. -/
def hexDigitChar (n : Nat) : Char := "0123456789abcdef".toList.getD n '0'

/-- `JSON.stringify` escaping of one character: `"` and `\` are escaped, the
five control characters with short escapes use them, the remaining control
characters use `\u00xx`, everything else is emitted as-is. -/
def escapeChar (c : Char) : List Char :=
  if c = '"' then ['\\', '"']
  else if c = '\\' then ['\\', '\\']
  else if c.toNat = 8 then ['\\', 'b']
  else if c.toNat = 9 then ['\\', 't']
  else if c.toNat = 10 then ['\\', 'n']
  else if c.toNat = 12 then ['\\', 'f']
  else if c.toNat = 13 then ['\\', 'r']
  else if c.toNat < 0x20 then
    ['\\', 'u', '0', '0', hexDigitChar (c.toNat / 16), hexDigitChar (c.toNat % 16)]
  else [c]

/-- `JSON.stringify` on a string. -/
def jsonQuote (s : String) : String :=
  String.mk ('"' :: (s.data.map escapeChar).flatten ++ ['"'])

/-- UTF-16 code units of one scalar value. -/
def charUtf16 (c : Char) : List Nat :=
  let n := c.toNat
  if n < 0x10000 then [n]
  else [0xD800 + (n - 0x10000) / 0x400, 0xDC00 + (n - 0x10000) % 0x400]

/-- UTF-16 code units of a string (the representation JavaScript strings are
compared by). -/
def utf16Units (s : String) : List Nat := (s.data.map charUtf16).flatten

/-- Lexicographic "less or equal" on code-unit lists. -/
def unitsLe : List Nat → List Nat → Bool
  | [], _ => true
  | _ :: _, [] => false
  | a :: as, b :: bs => if a < b then true else if b < a then false else unitsLe as bs

/-- Lexicographic "strictly less" on code-unit lists. -/
def unitsLt : List Nat → List Nat → Bool
  | _, [] => false
  | [], _ :: _ => true
  | a :: as, b :: bs => if a < b then true else if b < a then false else unitsLt as bs

/-- JavaScript string comparison `a <= b` (UTF-16 code-unit lexicographic). -/
def utf16Le (a b : String) : Bool := unitsLe (utf16Units a) (utf16Units b)

/-- JavaScript string comparison `a < b` (UTF-16 code-unit lexicographic). -/
def utf16Lt (a b : String) : Bool := unitsLt (utf16Units a) (utf16Units b)

/-- The ordering `Array.prototype.sort` uses on strings, as a proposition. -/
def keyLeProp : String → String → Prop := fun a b => utf16Le a b = true

instance : DecidableRel keyLeProp := fun a b =>
  inferInstanceAs (Decidable (utf16Le a b = true))

/-- `Object.keys(obj).sort()`: sort the keys by UTF-16 code-unit order
(the default `Array.prototype.sort` comparison for strings). -/
def sortKeys (keys : List String) : List String :=
  List.insertionSort keyLeProp keys

/-- First-match association lookup: `obj[key]` on a plain object. -/
def assocFind {α : Type} (k : String) : List (String × α) → Option α
  | [] => none
  | (k', v) :: rest => if k' = k then some v else assocFind k rest

/-- The `obj[key] !== undefined` test, on the pre-canonicalized entry. -/
def keepEntry : Option (Bool × String) → Bool
  | none => false
  | some (isU, _) => !isU

/-- The keys an object serialization emits, in order: the sorted key list,
restricted to keys whose value is not `undefined`. -/
def jcsObjKeys (canon : List (String × Bool × String)) : List String :=
  (sortKeys (canon.map Prod.fst)).filter (fun k => keepEntry (assocFind k canon))

/-- One emitted `"key":value` pair. -/
def jcsPair (canon : List (String × Bool × String)) (k : String) : String :=
  jsonQuote k ++ ":" ++ ((assocFind k canon).elim "" (fun e => e.2))

mutual
/-- `jcsCanonicalise` from src/crypto.ts (RFC 8785-style canonicalization):
`null`/`undefined` ↦ `null`; booleans and numbers via `JSON.stringify`;
strings via `JSON.stringify`; arrays elementwise joined by `,`; objects with
keys sorted by UTF-16 code units, entries with `undefined` values omitted. -/
def jcsCanonicalise : Json → String
  | .undef => "null"
  | .null => "null"
  | .bool b => if b then "true" else "false"
  | .num n => jsNumStringify n
  | .str s => jsonQuote s
  | .arr elems => "[" ++ String.intercalate "," (jcsList elems) ++ "]"
  | .obj fields =>
      let canon := jcsFields fields
      "\x7b" ++ String.intercalate "," ((jcsObjKeys canon).map (jcsPair canon)) ++ "\x7d"

/-- Canonicalize every element of an array. -/
def jcsList : JsonList → List String
  | .nil => []
  | .cons v rest => jcsCanonicalise v :: jcsList rest

/-- Canonicalize every field value, remembering which values are `undefined`. -/
def jcsFields : JsonFields → List (String × Bool × String)
  | .nil => []
  | .cons k v rest => (k, v.isUndef, jcsCanonicalise v) :: jcsFields rest
end

/-! ## Hash helpers (src/crypto.ts) -/

/-- `computeChainHash` from src/crypto.ts:
`sha256_b64u(prev + "|" + payloadHash + "|" + operationId + "|" + issuedAt)`,
with `issuedAt` interpolated as its decimal representation (a JavaScript
template literal on an integral number). -/
def computeChainHash (prevChainHash payloadHash operationId : String)
    (issuedAt : Nat) : String :=
  sha256Base64url
    (prevChainHash ++ "|" ++ payloadHash ++ "|" ++ operationId ++ "|" ++ toString issuedAt)

/-- `computePayloadHash` from src/crypto.ts: SHA-256 of the JCS
canonicalization, base64url. -/
def computePayloadHash (payload : Json) : String :=
  sha256Base64url (jcsCanonicalise payload)

/-! ## Errors (src/errors.ts) and the Ed25519 signer front end (src/crypto.ts)

`ElydoraError` carries `statusCode`, `code`, `message`, `requestId`,
`details`; the last four are populated from parsed JSON, so they are
modelled as `Json` values (`Json.undef` when the server body lacked them).
Any other thrown error (Node crypto import failures, network failures,
body-parse failures) is `generic`. -/

inductive SdkError where
  | elydora (statusCode : Nat) (code : Json) (message : Json) (requestId : Json)
            (details : Json)
  | generic (message : String)

/-- Value of one base64 character; Node's lenient decoder accepts both the
standard and the url-safe alphabet and skips everything else. -/
def b64CharVal (c : Char) : Option Nat :=
  if 'A' ≤ c ∧ c ≤ 'Z' then some (c.toNat - 65)
  else if 'a' ≤ c ∧ c ≤ 'z' then some (c.toNat - 97 + 26)
  else if '0' ≤ c ∧ c ≤ '9' then some (c.toNat - 48 + 52)
  else if c = '+' ∨ c = '-' then some 62
  else if c = '/' ∨ c = '_' then some 63
  else none

/-- Reassemble bytes from 6-bit groups, truncating a trailing partial group
the way Node's base64 decoder does. -/
def b64Groups : List Nat → List Nat
  | a :: b :: c :: d :: rest =>
      ((a <<< 2) ||| (b >>> 4)) :: (((b % 16) <<< 4) ||| (c >>> 2)) ::
      (((c % 4) <<< 6) ||| d) :: b64Groups rest
  | [a, b, c] => [(a <<< 2) ||| (b >>> 4), ((b % 16) <<< 4) ||| (c >>> 2)]
  | [a, b] => [(a <<< 2) ||| (b >>> 4)]
  | _ => []

/-- `Buffer.from(s, 'base64url')`: lenient, never-throwing base64 decoding. -/
def base64urlDecode (s : String) : List Nat :=
  b64Groups (s.data.filterMap b64CharVal)

/-- The PKCS8 wrapper bytes from src/crypto.ts (source name: PKCS8_ED25519_PREFIX). -/
def pkcs8Ed25519Header : List Nat :=
  [0x30, 0x2e, 0x02, 0x01, 0x00, 0x30, 0x05, 0x06, 0x03, 0x2b, 0x65, 0x70,
   0x04, 0x22, 0x04, 0x20]

/-- Node's `crypto.createPrivateKey({format:'der', type:'pkcs8'})` applied to
`pkcs8Ed25519Header ++ seed`: the fixed prefix declares a 46-byte SEQUENCE
whose innermost OCTET STRING holds exactly 32 seed bytes, so the complete
structure occupies the first 48 bytes of the buffer.  OpenSSL's `d2i` parsing
(which Node uses) reads exactly the declared ASN.1 extent and ignores any
trailing bytes, so the import succeeds whenever the buffer holds at least the
full 48-byte structure — the key object carries the 32 declared seed bytes —
and throws a generic (non-`ElydoraError`) crypto error when the structure is
truncated (fewer than 48 bytes). -/
def createPrivateKeyDer (der : List Nat) : Except SdkError (List Nat) :=
  if der.take 16 = pkcs8Ed25519Header ∧ 48 ≤ der.length then
    .ok ((der.drop 16).take 32)
  else .error (.generic "Failed to read private key")

/-- `importPrivateKey` from src/crypto.ts: decode the base64url seed, wrap it
in the PKCS8 prefix, import as DER. -/
def importPrivateKey (privateKeyBase64url : String) : Except SdkError (List Nat) :=
  createPrivateKeyDer (pkcs8Ed25519Header ++ base64urlDecode privateKeyBase64url)

/-- `signEd25519` from src/crypto.ts.  The raw Ed25519 signing primitive
(`crypto.sign`, total on every imported key) is passed explicitly as
`prim : seed bytes → message bytes → signature bytes`. -/
def signEd25519 (prim : List Nat → List Nat → List Nat)
    (privateKeyBase64url : String) (data : List Nat) : Except SdkError String :=
  (importPrivateKey privateKeyBase64url).map
    (fun seed => base64urlEncode (prim seed data))

/-- `derivePublicKey` from src/crypto.ts, with the raw public-key derivation
primitive (`crypto.createPublicKey` + SPKI export, total on every imported
key) passed explicitly. -/
def derivePublicKey (pubPrim : List Nat → List Nat)
    (privateKeyBase64url : String) : Except SdkError String :=
  (importPrivateKey privateKeyBase64url).map
    (fun seed => base64urlEncode (pubPrim seed))

/-! ## Identifiers (src/utils.ts) -/

/-- The 16 bytes assembled by `uuidv7()`: 48-bit millisecond timestamp,
version nibble 7 with 12 random bits, variant bits `10` with 62 random bits.
`now` is the `Date.now()` reading, `random` the 10 bytes from
`crypto.randomBytes(10)`. -/
def uuidv7Bytes (now : Nat) (random : List Nat) : List Nat :=
  let r := fun i => random.getD i 0
  [(now / 2 ^ 40) % 256, (now / 2 ^ 32) % 256, (now / 2 ^ 24) % 256,
   (now / 2 ^ 16) % 256, (now / 2 ^ 8) % 256, now % 256,
   0x70 ||| (r 0 &&& 0x0f), r 1,
   0x80 ||| (r 2 &&& 0x3f), r 3, r 4, r 5, r 6, r 7, r 8, r 9]

/-- Two lowercase hex characters of one byte. -/
def byteToHexChars (b : Nat) : List Char := [hexDigitChar (b / 16), hexDigitChar (b % 16)]

/-- Lowercase hex characters of a byte list (`Buffer.prototype.toString('hex')`). -/
def bytesToHex (bs : List Nat) : List Char := (bs.map byteToHexChars).flatten

/-- `uuidv7` from src/utils.ts: the canonical `8-4-4-4-12` lowercase form. -/
def uuidv7 (now : Nat) (random : List Nat) : String :=
  let hex := bytesToHex (uuidv7Bytes now random)
  String.mk (hex.take 8) ++ "-" ++ String.mk ((hex.drop 8).take 4) ++ "-" ++
    String.mk ((hex.drop 12).take 4) ++ "-" ++ String.mk ((hex.drop 16).take 4) ++
    "-" ++ String.mk (hex.drop 20)

/-- Value of a lowercase hex character. -/
def hexCharVal (c : Char) : Nat :=
  if '0' ≤ c ∧ c ≤ '9' then c.toNat - 48
  else if 'a' ≤ c ∧ c ≤ 'f' then c.toNat - 87
  else 0

/-- Value of a big-endian hex character list. -/
def hexVal (cs : List Char) : Nat := cs.foldl (fun acc c => 16 * acc + hexCharVal c) 0

/-- The 48-bit timestamp field of a canonically formatted UUIDv7 string:
hex characters 0-7 and 9-12 (skipping the first dash). -/
def uuidTimestamp (s : String) : Nat :=
  hexVal (s.data.take 8 ++ (s.data.drop 9).take 4)

/-- `generateNonce` from src/utils.ts, with the 16 random bytes explicit. -/
def generateNonce (bytes : List Nat) : String := base64urlEncode bytes

/-! ## The operation builder (src/client.ts, `ElydoraClient`) -/

/-- `ElydoraClientConfig` from src/types.ts (optional fields as `Option`). -/
structure ElydoraClientConfig where
  orgId : String
  agentId : String
  privateKey : String
  baseUrl : Option String
  ttlMs : Option Nat
  maxRetries : Option Nat
  kid : Option String

/-- The fields of an `ElydoraClient` instance. -/
structure ClientState where
  orgId : String
  agentId : String
  privateKey : String
  baseUrl : String
  ttlMs : Nat
  maxRetries : Nat
  kid : String
  prevChainHash : String
  token : Option String

/-- `.replace(/\/+$/, '')`: strip trailing slashes. -/
def stripTrailingSlashes (s : String) : String :=
  String.mk (((s.data.reverse).dropWhile (fun c => c = '/')).reverse)

/-- The `ElydoraClient` constructor. -/
def initClient (config : ElydoraClientConfig) : ClientState :=
  { orgId := config.orgId
    agentId := config.agentId
    privateKey := config.privateKey
    baseUrl := stripTrailingSlashes (config.baseUrl.getD "https://api.elydora.com")
    ttlMs := config.ttlMs.getD 30000
    maxRetries := config.maxRetries.getD 3
    kid := config.kid.getD (config.agentId ++ "-key-v1")
    prevChainHash := ZERO_CHAIN_HASH
    token := none }

/-- A signed Elydora Operation Record (src/types.ts `EOR`). -/
structure EOR where
  op_version : String
  operation_id : String
  org_id : String
  agent_id : String
  issued_at : Nat
  ttl_ms : Nat
  nonce : String
  operation_type : String
  subject : Json
  action : Json
  payload : Json
  payload_hash : String
  prev_chain_hash : String
  agent_pubkey_kid : String
  signature : String

/-- `CreateOperationParams` from src/types.ts; `payload` is optional
(`none` models an omitted or `undefined` argument). -/
structure CreateOperationParams where
  operationType : String
  subject : Json
  action : Json
  payload : Option Json

/-- The ambient effects consumed by one `createOperation` call: the
`Date.now()` reading inside `uuidv7()`, the 10 random uuid bytes, the
`Date.now()` reading for `issued_at`, and the 16 random nonce bytes. -/
structure BuildEnv where
  uuidNowMs : Nat
  uuidRandom : List Nat
  issuedAt : Nat
  nonceBytes : List Nat

/-- `params.payload ?? null`: nullish coalescing to JSON `null`. -/
def jsNullish : Option Json → Json
  | none => .null
  | some .undef => .null
  | some .null => .null
  | some v => v

/-- The unsigned EOR as the JavaScript object literal `eorWithoutSig`
(insertion order as in the source; JCS sorts it anyway). -/
def eorWithoutSigJson (s : ClientState) (params : CreateOperationParams)
    (operationId : String) (issuedAt : Nat) (nonce : String)
    (payload : Json) (payloadHash : String) : Json :=
  Json.objL
    [("op_version", .str "1.0"),
     ("operation_id", .str operationId),
     ("org_id", .str s.orgId),
     ("agent_id", .str s.agentId),
     ("issued_at", .num (.finite (toString issuedAt))),
     ("ttl_ms", .num (.finite (toString s.ttlMs))),
     ("nonce", .str nonce),
     ("operation_type", .str params.operationType),
     ("subject", params.subject),
     ("action", params.action),
     ("payload", payload),
     ("payload_hash", .str payloadHash),
     ("prev_chain_hash", .str s.prevChainHash),
     ("agent_pubkey_kid", .str s.kid)]

/-- `ElydoraClient.createOperation`: build, hash, sign, and commit the new
chain head.  Signing can throw (malformed seed), in which case the chain head
is not advanced and no EOR is returned. -/
def createOperation (prim : List Nat → List Nat → List Nat)
    (s : ClientState) (env : BuildEnv) (params : CreateOperationParams) :
    Except SdkError (EOR × ClientState) :=
  let operationId := uuidv7 env.uuidNowMs env.uuidRandom
  let issuedAt := env.issuedAt
  let nonce := generateNonce env.nonceBytes
  let payload := jsNullish params.payload
  let payloadHash := computePayloadHash payload
  let chainHash := computeChainHash s.prevChainHash payloadHash operationId issuedAt
  let canonical :=
    jcsCanonicalise (eorWithoutSigJson s params operationId issuedAt nonce payload payloadHash)
  match signEd25519 prim s.privateKey (utf8Encode canonical) with
  | .error e => .error e
  | .ok signature =>
      .ok
        ({ op_version := "1.0"
           operation_id := operationId
           org_id := s.orgId
           agent_id := s.agentId
           issued_at := issuedAt
           ttl_ms := s.ttlMs
           nonce := nonce
           operation_type := params.operationType
           subject := params.subject
           action := params.action
           payload := payload
           payload_hash := payloadHash
           prev_chain_hash := s.prevChainHash
           agent_pubkey_kid := s.kid
           signature := signature },
         { s with prevChainHash := chainHash })

/-- `ElydoraClient.submitOperation` posts the EOR over HTTP via
`this.request`, which reads but never assigns any client field: its effect on
the client state is the identity. -/
def submitOperationState (s : ClientState) : ClientState := s

/-! ## Transport (src/client.ts, `request` / `handleResponse`) -/

/-- An HTTP response as the retry loop observes it: status, status text, the
`Retry-After` header (`none` when absent), and the result of parsing the body
as JSON (`none` when `res.json()` rejects). -/
structure HttpResp where
  status : Nat
  statusText : String
  retryAfter : Option String
  body : Option Json

/-- Outcome of one `fetch` call. -/
inductive FetchOutcome where
  | netErr (message : String)
  | resp (r : HttpResp)

/-- JavaScript truthiness of a JSON value. -/
def jsTruthy : Json → Bool
  | .undef => false
  | .null => false
  | .bool b => b
  | .num n =>
      match n with
      | .finite r => !(r = "0" || r = "-0")
      | .nan => false
      | .inf => true
      | .negInf => true
  | .str s => !(s = "")
  | .arr _ => true
  | .obj fields => let _ := fields; true

/-- Property access `v.k` (with optional chaining semantics: anything that is
not an object with the key yields `undefined`). -/
def jsonGet (v : Json) (k : String) : Json :=
  match v with
  | .obj fields => ((jcsFieldsAssoc fields).elim .undef id : Json)
  | _ => .undef
where
  jcsFieldsAssoc : JsonFields → Option Json
    | .nil => none
    | .cons k' v' rest => if k' = k then some v' else jcsFieldsAssoc rest

/-- `handleResponse` from src/client.ts: 2xx parse (204 as unit), non-2xx
raise a typed `ElydoraError` built from the parsed error body, or an
`INTERNAL_ERROR` one when the body is not parseable JSON with a truthy
`error` field. -/
def handleResponse (res : HttpResp) : Except SdkError (Option Json) :=
  if 200 ≤ res.status ∧ res.status ≤ 299 then
    if res.status = 204 then .ok none
    else
      match res.body with
      | some v => .ok (some v)
      | none => .error (.generic "Unexpected end of JSON input")
  else
    let errField :=
      match res.body with
      | some v => jsonGet v "error"
      | none => Json.undef
    if jsTruthy errField then
      .error (.elydora res.status (jsonGet errField "code") (jsonGet errField "message")
        (jsonGet errField "request_id") (jsonGet errField "details"))
    else
      .error (.elydora res.status (.str "INTERNAL_ERROR")
        (.str ("HTTP " ++ toString res.status ++ ": " ++ res.statusText))
        (.str "unknown") .undef)

/-- Decimal digit prefix. -/
def jsDigits (cs : List Char) : List Char :=
  cs.takeWhile (fun c => '0' ≤ c ∧ c ≤ '9')

/-- Numeric value of a decimal digit list. -/
def digitsVal (cs : List Char) : Nat :=
  cs.foldl (fun a c => 10 * a + (c.toNat - 48)) 0

/-- `parseInt(s, 10)`: skip leading whitespace, optional sign, then the
longest digit prefix; `none` models a `NaN` result. -/
def jsParseInt (s : String) : Option Int :=
  let cs := s.data.dropWhile (fun c =>
    c = ' ' ∨ c = '\t' ∨ c = '\n' ∨ c = '\r' ∨ c.toNat = 11 ∨ c.toNat = 12)
  match cs with
  | '-' :: rest =>
      if jsDigits rest = [] then none else some (-(digitsVal (jsDigits rest) : Int))
  | '+' :: rest =>
      if jsDigits rest = [] then none else some (digitsVal (jsDigits rest) : Int)
  | _ => if jsDigits cs = [] then none else some (digitsVal (jsDigits cs) : Int)

/-- A sleep duration as handed to `setTimeout`; `nan` models the `NaN`
produced by `parseInt(retryAfter) * 1000` on a non-numeric header. -/
inductive DelayVal where
  | ms (n : Int)
  | nan
deriving DecidableEq, Repr

/-- The exponential backoff term `Math.min(1000 * 2 ** attempt, 10_000)`. -/
def backoffMs (attempt : Nat) : Nat := min (1000 * 2 ^ attempt) 10000

/-- The delay computed after a retryable (429/5xx) response at 0-indexed
`attempt`: `retryAfter ? parseInt(retryAfter, 10) * 1000 :
min(1000 * 2 ** attempt, 10_000)`.  `res.headers.get` yields `null` (`none`)
for an absent header; the empty string is falsy and also selects the backoff
branch. -/
def retryDelay (retryAfter : Option String) (attempt : Nat) : DelayVal :=
  match retryAfter with
  | none => .ms (backoffMs attempt)
  | some s =>
      if s = "" then .ms (backoffMs attempt)
      else
        match jsParseInt s with
        | some k => .ms (k * 1000)
        | none => .nan

/-- One execution of `ElydoraClient.request`: its outcome, the number of
HTTP requests issued, and the sleeps performed (in order). -/
structure RequestTrace where
  result : Except SdkError (Option Json)
  requests : Nat
  delays : List DelayVal

/-- What one iteration of the request loop decides to do next. -/
inductive StepOutcome where
  | done (result : Except SdkError (Option Json))
  | retry (newLastErr : Option SdkError) (delay : DelayVal)

/-- The body of the `for (attempt = 0; attempt <= maxRetries; attempt++)`
loop of `ElydoraClient.request`, for one attempt:
retry (with the computed sleep) on fetch rejection or on a 429/5xx status
while attempts remain; raise a structured `ElydoraError` immediately without
retrying; retry any other thrown error; return the parsed 2xx body. -/
def attemptStep (outcome : FetchOutcome) (attempt maxRetries : Nat)
    (lastErr : Option SdkError) : StepOutcome :=
  match outcome with
  | .netErr msg =>
      if attempt < maxRetries then .retry (some (.generic msg)) (.ms (backoffMs attempt))
      else .done (.error (.generic msg))
  | .resp res =>
      if attempt < maxRetries ∧ (res.status = 429 ∨ 500 ≤ res.status) then
        .retry lastErr (retryDelay res.retryAfter attempt)
      else
        match handleResponse res with
        | .ok v => .done (.ok v)
        | .error (.elydora a b c d e) => .done (.error (.elydora a b c d e))
        | .error (.generic m) =>
            if attempt < maxRetries then
              .retry (some (.generic m)) (.ms (backoffMs attempt))
            else .done (.error (.generic m))

/-- The request loop.  `responses n` is what the `n`-th `fetch` does; the
fuel argument (`maxRetries + 1 - attempt`) makes the recursion structural.
Running out of fuel is the loop exit
(`throw lastError ?? new Error('Request failed after retries')`). -/
def requestGo (responses : Nat → FetchOutcome) (maxRetries : Nat) :
    Nat → Nat → Option SdkError → Nat → List DelayVal → RequestTrace
  | 0, _, lastErr, reqs, delays =>
      ⟨.error (lastErr.getD (.generic "Request failed after retries")), reqs, delays⟩
  | fuel + 1, attempt, lastErr, reqs, delays =>
      match attemptStep (responses attempt) attempt maxRetries lastErr with
      | .done r => ⟨r, reqs + 1, delays⟩
      | .retry newErr d =>
          requestGo responses maxRetries fuel (attempt + 1) newErr (reqs + 1)
            (delays ++ [d])

/-- `ElydoraClient.request` (attempt count `1 + maxRetries`). -/
def requestLoop (responses : Nat → FetchOutcome) (maxRetries : Nat) : RequestTrace :=
  requestGo responses maxRetries (maxRetries + 1) 0 none 0 []

/-- Whether an attempt outcome is a retryable response (429 or 5xx). -/
def isRetryable : FetchOutcome → Bool
  | .resp r => decide (r.status = 429) || decide (500 ≤ r.status)
  | .netErr _ => false

/-- The `Retry-After` header of a response outcome. -/
def outcomeRetryAfter : FetchOutcome → Option String
  | .resp r => r.retryAfter
  | .netErr _ => none

/-- The object key sequence the canonicaliser emits for a given field list. -/
def jcsEmittedKeys (fields : List (String × Json)) : List String :=
  jcsObjKeys (jcsFields (JsonFields.ofList fields))

/-- Whether a signer result is a typed `ElydoraError` with code
`VALIDATION_ERROR`. -/
def isTypedValidationError : Except SdkError String → Bool
  | .error (.elydora _ c _ _ _) =>
      match c with
      | .str s => decide (s = "VALIDATION_ERROR")
      | _ => false
  | _ => false

/-! ## Concrete fixtures (stub servers, a valid seed, sample builds) -/

/-- A stand-in raw Ed25519 signing primitive for concrete runs (the claims
under test do not constrain the signature bytes themselves). -/
def wPrim : List Nat → List Nat → List Nat := fun _ _ => []

/-- A stand-in raw public-key derivation primitive. -/
def wPubPrim : List Nat → List Nat := fun _ => []

/-- A well-formed seed: 43 base64url characters decoding to 32 bytes. -/
def wSeed : String := "AAAAAAAAAAAAAAAAAAAAAAAAAAAAAAAAAAAAAAAAAAA"

/-- An over-long seed: 44 base64url characters decoding to 33 bytes. -/
def wSeed44 : String := "AAAAAAAAAAAAAAAAAAAAAAAAAAAAAAAAAAAAAAAAAAAA"

def wConfig : ElydoraClientConfig :=
  { orgId := "org-1", agentId := "agent-1", privateKey := wSeed,
    baseUrl := none, ttlMs := none, maxRetries := none, kid := none }

def wClient : ClientState := initClient wConfig

def wParams1 : CreateOperationParams :=
  { operationType := "data.access"
    subject := Json.objL [("user_id", .str "u-123")]
    action := Json.objL [("type", .str "read")]
    payload := some (Json.objL [("x", .num (.finite "1"))]) }

def wParams2 : CreateOperationParams :=
  { operationType := "file.write"
    subject := Json.objL []
    action := Json.objL []
    payload := none }

def wEnv1 : BuildEnv :=
  { uuidNowMs := 1700000000000, uuidRandom := [0, 1, 2, 3, 4, 5, 6, 7, 8, 9],
    issuedAt := 1700000000000, nonceBytes := List.replicate 16 7 }

/-- Same uuid millisecond as `wEnv1`, different random bytes. -/
def wEnv2 : BuildEnv :=
  { uuidNowMs := 1700000000000,
    uuidRandom := [255, 254, 253, 252, 251, 250, 249, 248, 247, 246],
    issuedAt := 1700000000001, nonceBytes := List.replicate 16 9 }

/-- One millisecond later than `wEnv1`. -/
def wEnv3 : BuildEnv :=
  { uuidNowMs := 1700000000001, uuidRandom := [0, 1, 2, 3, 4, 5, 6, 7, 8, 9],
    issuedAt := 1700000000002, nonceBytes := List.replicate 16 11 }

def dummyEOR : EOR :=
  { op_version := "", operation_id := "", org_id := "", agent_id := "",
    issued_at := 0, ttl_ms := 0, nonce := "", operation_type := "",
    subject := .null, action := .null, payload := .null, payload_hash := "",
    prev_chain_hash := "", agent_pubkey_kid := "", signature := "" }

def dummyClient : ClientState :=
  { orgId := "", agentId := "", privateKey := "", baseUrl := "", ttlMs := 0,
    maxRetries := 0, kid := "", prevChainHash := "", token := none }

def wBuild1 : EOR × ClientState :=
  ((createOperation wPrim wClient wEnv1 wParams1).toOption).getD (dummyEOR, dummyClient)

def wEOR1 : EOR := wBuild1.1

def wState1 : ClientState := wBuild1.2

def wBuild2 : EOR × ClientState :=
  ((createOperation wPrim wState1 wEnv2 wParams2).toOption).getD (dummyEOR, dummyClient)

def wEOR2 : EOR := wBuild2.1

def wState2 : ClientState := wBuild2.2

def wBuild3 : EOR × ClientState :=
  ((createOperation wPrim wState1 wEnv3 wParams2).toOption).getD (dummyEOR, dummyClient)

def wEOR3 : EOR := wBuild3.1

def wState3 : ClientState := wBuild3.2

/-- Stub server for the non-retryable-error scenario: every attempt gets a
`400` with a parseable error body. -/
def c7Body : Json :=
  Json.objL [("error", Json.objL
    [("code", .str "VALIDATION_ERROR"), ("message", .str "bad payload"),
     ("request_id", .str "r1")])]

def c7Resp : HttpResp :=
  { status := 400, statusText := "Bad Request", retryAfter := none,
    body := some c7Body }

def c7Responses : Nat → FetchOutcome := fun _ => .resp c7Resp

/-- Stub server for the Retry-After counterexample: attempt 0 gets `503`
with `Retry-After: abc`, further attempts get `200`. -/
def c8CexResponses : Nat → FetchOutcome :=
  fun n =>
    if n = 0 then
      .resp { status := 503, statusText := "Service Unavailable",
              retryAfter := some "abc", body := none }
    else .resp { status := 200, statusText := "OK", retryAfter := none,
                 body := some .null }

/-- Stub server for the delay-schedule witness: `503` with `Retry-After: 2`,
then `500` without the header, then `200`. -/
def c8WResponses : Nat → FetchOutcome :=
  fun n =>
    if n = 0 then
      .resp { status := 503, statusText := "Service Unavailable",
              retryAfter := some "2", body := none }
    else if n = 1 then
      .resp { status := 500, statusText := "Internal Server Error",
              retryAfter := none, body := none }
    else .resp { status := 200, statusText := "OK", retryAfter := none,
                 body := some .null }

/-- The JCS determinism witness object and a permutation of it. -/
def c4Fields : List (String × Json) :=
  [("b", .num (.finite "1")), ("a", .num (.finite "2"))]

def c4FieldsPerm : List (String × Json) :=
  [("a", .num (.finite "2")), ("b", .num (.finite "1"))]

/-! ## Characterization of a successful build -/

/-- The EOR produced by a successful build. -/
def builtEOR (s : ClientState) (env : BuildEnv) (p : CreateOperationParams)
    (sig : String) : EOR :=
  { op_version := "1.0"
    operation_id := uuidv7 env.uuidNowMs env.uuidRandom
    org_id := s.orgId
    agent_id := s.agentId
    issued_at := env.issuedAt
    ttl_ms := s.ttlMs
    nonce := generateNonce env.nonceBytes
    operation_type := p.operationType
    subject := p.subject
    action := p.action
    payload := jsNullish p.payload
    payload_hash := computePayloadHash (jsNullish p.payload)
    prev_chain_hash := s.prevChainHash
    agent_pubkey_kid := s.kid
    signature := sig }

/-- The chain head committed by a successful build. -/
def builtChainHash (s : ClientState) (env : BuildEnv) (p : CreateOperationParams) : String :=
  computeChainHash s.prevChainHash (computePayloadHash (jsNullish p.payload))
    (uuidv7 env.uuidNowMs env.uuidRandom) env.issuedAt

/-- The canonical bytes that get signed. -/
def builtSignInput (s : ClientState) (env : BuildEnv) (p : CreateOperationParams) : List Nat :=
  utf8Encode (jcsCanonicalise
    (eorWithoutSigJson s p (uuidv7 env.uuidNowMs env.uuidRandom) env.issuedAt
      (generateNonce env.nonceBytes) (jsNullish p.payload)
      (computePayloadHash (jsNullish p.payload))))

lemma createOperation_ok_iff (prim : List Nat → List Nat → List Nat)
    (s : ClientState) (env : BuildEnv) (p : CreateOperationParams)
    (e : EOR) (s' : ClientState) :
    createOperation prim s env p = .ok (e, s') ↔
      ∃ sig,
        signEd25519 prim s.privateKey (builtSignInput s env p) = .ok sig
        ∧ e = builtEOR s env p sig
        ∧ s' = { s with prevChainHash := builtChainHash s env p } := by
  unfold createOperation builtSignInput builtEOR builtChainHash
  cases hE : signEd25519 prim s.privateKey
      (utf8Encode (jcsCanonicalise
        (eorWithoutSigJson s p (uuidv7 env.uuidNowMs env.uuidRandom)
          env.issuedAt (generateNonce env.nonceBytes) (jsNullish p.payload)
          (computePayloadHash (jsNullish p.payload))))) with
  | error err => simp [hE]
  | ok sig =>
      simp [hE, Prod.ext_iff]
      constructor
      · rintro ⟨h1, h2⟩; exact ⟨h1.symm, h2.symm⟩
      · rintro ⟨h1, h2⟩; exact ⟨h1.symm, h2.symm⟩

/-! ## Claim theorems -/

set_option maxRecDepth 40000

/-- C3 (counterexample): the genesis constant computed by the code —
base64url(SHA-256 of 32 zero bytes) — is NOT the literal string the spec
claims for it. -/
theorem zero_chain_hash_ne_spec_literal :
    ZERO_CHAIN_HASH ≠ "Yp8SzGOtvnjEiJ0EGtZXSR7KTlpQnnIxMZuFbVBsUqo" := by
  decide

/-- C3 (amended): `ZERO_CHAIN_HASH` is defined as base64url(SHA-256 of 32
zero bytes), and that value is the literal
`"Zmh6rfhivXdsj8GLjp-OIAiXFIVu4jOzkCpZHQ1fKSU"`. -/
theorem zero_chain_hash_value :
    ZERO_CHAIN_HASH = base64urlEncode (sha256 (List.replicate 32 0))
    ∧ ZERO_CHAIN_HASH = "Zmh6rfhivXdsj8GLjp-OIAiXFIVu4jOzkCpZHQ1fKSU" :=
  ⟨rfl, by decide⟩

/-- C5 (code evaluated at the failing input): `jcsCanonicalise` does not fail
on non-finite numbers — `JSON.stringify` turns `NaN`, `Infinity` and
`-Infinity` into the token `null`, so canonicalization silently produces
output, and payload hashing conflates a NaN payload with a null-valued one,
contrary to the spec's (and RFC 8785's) required `VALIDATION_ERROR`. -/
theorem jcs_nonfinite_silently_null :
    jcsCanonicalise (.num .nan) = "null"
    ∧ jcsCanonicalise (.num .inf) = "null"
    ∧ jcsCanonicalise (.num .negInf) = "null"
    ∧ jcsCanonicalise (Json.objL [("x", .num .nan)]) = "\x7b\"x\":null\x7d"
    ∧ computePayloadHash (Json.objL [("x", .num .nan)]) =
        computePayloadHash (Json.objL [("x", .null)]) :=
  ⟨rfl, rfl, rfl, by decide, by decide⟩

/-- C1: for successive successful builds E1, E2 on the same client,
`E2.prev_chain_hash` is the SHA-256/base64url of
`E1.prev_chain_hash | E1.payload_hash | E1.operation_id | decimal(E1.issued_at)`;
the head after the first build already equals that value (the build itself
commits it, and `submitOperation` leaves the client state unchanged); and a
freshly constructed client signs its first EOR against `ZERO_CHAIN_HASH`. -/
theorem chain_linkage (prim : List Nat → List Nat → List Nat)
    (s : ClientState) (env1 env2 : BuildEnv) (p1 p2 : CreateOperationParams)
    (e1 e2 : EOR) (s1 s2 : ClientState)
    (h1 : createOperation prim s env1 p1 = .ok (e1, s1))
    (h2 : createOperation prim s1 env2 p2 = .ok (e2, s2)) :
    e2.prev_chain_hash =
      sha256Base64url (e1.prev_chain_hash ++ "|" ++ e1.payload_hash ++ "|" ++
        e1.operation_id ++ "|" ++ toString e1.issued_at)
    ∧ s1.prevChainHash = e2.prev_chain_hash
    ∧ submitOperationState s1 = s1
    ∧ (∀ cfg env p e s', createOperation prim (initClient cfg) env p = .ok (e, s') →
        e.prev_chain_hash = ZERO_CHAIN_HASH) := by
  obtain ⟨sig1, hsig1, he1, hst1⟩ := (createOperation_ok_iff prim s env1 p1 e1 s1).mp h1
  obtain ⟨sig2, hsig2, he2, hst2⟩ := (createOperation_ok_iff prim s1 env2 p2 e2 s2).mp h2
  subst he1 he2 hst1 hst2
  refine ⟨?_, rfl, rfl, ?_⟩
  · simp [builtEOR, builtChainHash, computeChainHash]
  · intro cfg env p e s' h
    obtain ⟨sig, hsig, he, hst⟩ := (createOperation_ok_iff prim (initClient cfg) env p e s').mp h
    subst he
    simp [builtEOR, initClient]

/-- C2: every successfully built EOR satisfies
`payload_hash = base64url(SHA-256(UTF-8(JCS(payload))))`, and omitting
`params.payload` yields a JSON `null` payload. -/
theorem payload_hash_postcondition (prim : List Nat → List Nat → List Nat)
    (s : ClientState) (env : BuildEnv) (p : CreateOperationParams)
    (e : EOR) (s' : ClientState)
    (h : createOperation prim s env p = .ok (e, s')) :
    e.payload_hash = base64urlEncode (sha256 (utf8Encode (jcsCanonicalise e.payload)))
    ∧ (p.payload = none → e.payload = Json.null) := by
  obtain ⟨sig, hsig, he, hst⟩ := (createOperation_ok_iff prim s env p e s').mp h
  subst he
  refine ⟨by simp [builtEOR, computePayloadHash, sha256Base64url], ?_⟩
  intro hp
  simp [builtEOR, jsNullish, hp]

/-- C10 (frame): a successful `createOperation` changes only `prevChainHash`;
every other client field is preserved, and the built EOR (as well as any EOR
built next on the resulting state) carries the client's `org_id`, `agent_id`,
`ttl_ms` and `agent_pubkey_kid`. -/
theorem createOperation_frame (prim : List Nat → List Nat → List Nat)
    (s : ClientState) (env : BuildEnv) (p : CreateOperationParams)
    (e : EOR) (s' : ClientState)
    (h : createOperation prim s env p = .ok (e, s')) :
    s'.orgId = s.orgId ∧ s'.agentId = s.agentId ∧ s'.privateKey = s.privateKey
    ∧ s'.baseUrl = s.baseUrl ∧ s'.ttlMs = s.ttlMs ∧ s'.maxRetries = s.maxRetries
    ∧ s'.kid = s.kid ∧ s'.token = s.token
    ∧ s' = { s with prevChainHash := s'.prevChainHash }
    ∧ e.org_id = s.orgId ∧ e.agent_id = s.agentId ∧ e.ttl_ms = s.ttlMs
    ∧ e.agent_pubkey_kid = s.kid
    ∧ (∀ env2 p2 e2 s2, createOperation prim s' env2 p2 = .ok (e2, s2) →
        e2.org_id = e.org_id ∧ e2.agent_id = e.agent_id ∧ e2.ttl_ms = e.ttl_ms
        ∧ e2.agent_pubkey_kid = e.agent_pubkey_kid) := by
  obtain ⟨sig, hsig, he, hst⟩ := (createOperation_ok_iff prim s env p e s').mp h
  subst he hst
  refine ⟨rfl, rfl, rfl, rfl, rfl, rfl, rfl, rfl, rfl, rfl, rfl, rfl, rfl, ?_⟩
  intro env2 p2 e2 s2 h2
  obtain ⟨sig2, hsig2, he2, hst2⟩ :=
    (createOperation_ok_iff prim _ env2 p2 e2 s2).mp h2
  subst he2
  exact ⟨rfl, rfl, rfl, rfl⟩



/-! ## UTF-16 code-unit order: injectivity, totality, transitivity -/

lemma char_toNat_lt (c : Char) : c.toNat < 0x110000 := by
  show c.val.toNat < 0x110000
  rcases c.valid with h | ⟨_, h2⟩ <;> omega

lemma char_not_surrogate (c : Char) : c.toNat < 0xD800 ∨ 0xDFFF < c.toNat := by
  show c.val.toNat < 0xD800 ∨ 0xDFFF < c.val.toNat
  rcases c.valid with h | ⟨h1, _⟩
  · left; exact h
  · right; exact h1

lemma charEqOfToNat {a b : Char} (h : a.toNat = b.toNat) : a = b :=
  Char.ext (UInt32.ext h)

lemma charUtf16_low {c : Char} (h : c.toNat < 0x10000) : charUtf16 c = [c.toNat] := by
  simp [charUtf16, h]

lemma charUtf16_high {c : Char} (h : ¬ c.toNat < 0x10000) :
    charUtf16 c =
      [0xD800 + (c.toNat - 0x10000) / 0x400, 0xDC00 + (c.toNat - 0x10000) % 0x400] := by
  simp [charUtf16, h]

lemma charUtf16_ne_nil (c : Char) : charUtf16 c ≠ [] := by
  by_cases h : c.toNat < 0x10000
  · simp [charUtf16_low h]
  · simp [charUtf16_high h]

lemma utf16_flatten_inj : ∀ l1 l2 : List Char,
    (l1.map charUtf16).flatten = (l2.map charUtf16).flatten → l1 = l2 := by
  intro l1
  induction l1 with
  | nil =>
      intro l2 h
      cases l2 with
      | nil => rfl
      | cons c t =>
          exfalso
          simp only [List.map_nil, List.flatten_nil, List.map_cons, List.flatten_cons] at h
          rcases hc : charUtf16 c with _ | ⟨u, us⟩
          · exact charUtf16_ne_nil c hc
          · rw [hc] at h; simp at h
  | cons c1 t1 ih =>
      intro l2 h
      cases l2 with
      | nil =>
          exfalso
          simp only [List.map_nil, List.flatten_nil, List.map_cons, List.flatten_cons] at h
          rcases hc : charUtf16 c1 with _ | ⟨u, us⟩
          · exact charUtf16_ne_nil c1 hc
          · rw [hc] at h; simp at h
      | cons c2 t2 =>
          simp only [List.map_cons, List.flatten_cons] at h
          by_cases h1 : c1.toNat < 0x10000 <;> by_cases h2 : c2.toNat < 0x10000
          · rw [charUtf16_low h1, charUtf16_low h2] at h
            simp only [List.cons_append, List.nil_append, List.cons.injEq] at h
            obtain ⟨hc, ht⟩ := h
            rw [charEqOfToNat hc, ih t2 ht]
          · rw [charUtf16_low h1, charUtf16_high h2] at h
            simp only [List.cons_append, List.nil_append, List.cons.injEq] at h
            obtain ⟨hc, -⟩ := h
            have hs := char_not_surrogate c1
            have hb := char_toNat_lt c2
            omega
          · rw [charUtf16_high h1, charUtf16_low h2] at h
            simp only [List.cons_append, List.nil_append, List.cons.injEq] at h
            obtain ⟨hc, -⟩ := h
            have hs := char_not_surrogate c2
            have hb := char_toNat_lt c1
            omega
          · rw [charUtf16_high h1, charUtf16_high h2] at h
            simp only [List.cons_append, List.nil_append, List.cons.injEq] at h
            obtain ⟨hh, hl, ht⟩ := h
            have e1 := char_toNat_lt c1
            have e2 := char_toNat_lt c2
            have heq : c1.toNat = c2.toNat := by omega
            rw [charEqOfToNat heq, ih t2 ht]

lemma utf16Units_inj {a b : String} (h : utf16Units a = utf16Units b) : a = b := by
  cases a; cases b
  exact congrArg String.mk (utf16_flatten_inj _ _ h)

lemma unitsLe_total : ∀ u v : List Nat, unitsLe u v = true ∨ unitsLe v u = true := by
  intro u
  induction u with
  | nil => intro v; left; rfl
  | cons a as ih =>
      intro v
      cases v with
      | nil => right; rfl
      | cons b bs =>
          by_cases hab : a < b
          · left; simp [unitsLe, hab]
          · by_cases hba : b < a
            · right; simp [unitsLe, hba]
            · have hba' : b = a := by omega
              subst hba'
              rcases ih bs with h | h
              · left; simp [unitsLe, hab, h]
              · right; simp [unitsLe, hab, h]

lemma unitsLe_trans : ∀ {u v w : List Nat},
    unitsLe u v = true → unitsLe v w = true → unitsLe u w = true := by
  intro u
  induction u with
  | nil => intro v w _ _; rfl
  | cons a as ih =>
      intro v w huv hvw
      cases v with
      | nil => simp [unitsLe] at huv
      | cons b bs =>
          cases w with
          | nil => simp [unitsLe] at hvw
          | cons c cs =>
              simp only [unitsLe] at huv hvw ⊢
              by_cases hab : a < b
              · by_cases hcb : c < b
                · rw [if_neg (show ¬ b < c by omega), if_pos hcb] at hvw
                  exact absurd hvw (by simp)
                · rw [if_pos (show a < c by omega)]
              · by_cases hba : b < a
                · rw [if_neg hab, if_pos hba] at huv
                  exact absurd huv (by simp)
                · rw [if_neg hab, if_neg hba] at huv
                  by_cases hbc : b < c
                  · rw [if_pos (show a < c by omega)]
                  · by_cases hcb : c < b
                    · rw [if_neg hbc, if_pos hcb] at hvw
                      exact absurd hvw (by simp)
                    · rw [if_neg hbc, if_neg hcb] at hvw
                      rw [if_neg (show ¬ a < c by omega), if_neg (show ¬ c < a by omega)]
                      exact ih huv hvw

lemma unitsLe_antisymm : ∀ {u v : List Nat},
    unitsLe u v = true → unitsLe v u = true → u = v := by
  intro u
  induction u with
  | nil =>
      intro v _ hvu
      cases v with
      | nil => rfl
      | cons b bs => simp [unitsLe] at hvu
  | cons a as ih =>
      intro v huv hvu
      cases v with
      | nil => simp [unitsLe] at huv
      | cons b bs =>
          simp only [unitsLe] at huv hvu
          by_cases hab : a < b
          · rw [if_neg (show ¬ b < a by omega), if_pos hab] at hvu
            exact absurd hvu (by simp)
          · by_cases hba : b < a
            · rw [if_neg hab, if_pos hba] at huv
              exact absurd huv (by simp)
            · rw [if_neg hab, if_neg hba] at huv
              rw [if_neg hba, if_neg hab] at hvu
              have hab' : a = b := by omega
              rw [hab', ih huv hvu]

lemma unitsLt_irrefl : ∀ u : List Nat, unitsLt u u = false := by
  intro u
  induction u with
  | nil => rfl
  | cons a as ih => simp [unitsLt, ih]

lemma unitsLt_not_le : ∀ {u v : List Nat},
    unitsLt u v = true → unitsLe v u = false := by
  intro u
  induction u with
  | nil =>
      intro v hlt
      cases v with
      | nil => simp [unitsLt] at hlt
      | cons b bs => rfl
  | cons a as ih =>
      intro v hlt
      cases v with
      | nil => simp [unitsLt] at hlt
      | cons b bs =>
          simp only [unitsLt] at hlt
          simp only [unitsLe]
          by_cases hab : a < b
          · rw [if_neg (show ¬ b < a by omega), if_pos hab]
          · by_cases hba : b < a
            · rw [if_neg hab, if_pos hba] at hlt
              exact absurd hlt (by simp)
            · rw [if_neg hab, if_neg hba] at hlt
              rw [if_neg hba, if_neg hab]
              exact ih hlt

/-! ## Sorting and association-list lemmas -/

instance : IsTotal String keyLeProp :=
  ⟨fun a b => unitsLe_total (utf16Units a) (utf16Units b)⟩

instance : IsTrans String keyLeProp :=
  ⟨fun _ _ _ h1 h2 => unitsLe_trans h1 h2⟩

instance : IsAntisymm String keyLeProp :=
  ⟨fun _ _ h1 h2 => utf16Units_inj (unitsLe_antisymm h1 h2)⟩

lemma sortKeys_perm (l : List String) : (sortKeys l).Perm l :=
  List.perm_insertionSort keyLeProp l

lemma sortKeys_sorted (l : List String) : List.Sorted keyLeProp (sortKeys l) :=
  List.sorted_insertionSort keyLeProp l

lemma sortKeys_congr_perm {l1 l2 : List String} (h : l1.Perm l2) :
    sortKeys l1 = sortKeys l2 :=
  List.eq_of_perm_of_sorted
    ((sortKeys_perm l1).trans (h.trans (sortKeys_perm l2).symm))
    (sortKeys_sorted l1) (sortKeys_sorted l2)

lemma assocFind_perm {α : Type} {l1 l2 : List (String × α)} (h : l1.Perm l2) :
    (l1.map Prod.fst).Nodup → ∀ k, assocFind k l1 = assocFind k l2 := by
  induction h with
  | nil => intro _ k; rfl
  | cons x h ih =>
      intro hnd k
      obtain ⟨kx, vx⟩ := x
      simp only [assocFind]
      by_cases hk : kx = k
      · simp [hk]
      · simp only [hk, if_false]
        exact ih (by simp only [List.map_cons] at hnd; exact hnd.of_cons) k
  | swap x y l =>
      intro hnd k
      obtain ⟨kx, vx⟩ := x
      obtain ⟨ky, vy⟩ := y
      simp only [List.map_cons, List.nodup_cons, List.mem_cons] at hnd
      simp only [assocFind]
      by_cases h1 : kx = k <;> by_cases h2 : ky = k
      · exfalso
        exact hnd.1 (Or.inl (by rw [h2, h1]))
      · simp [h1, h2]
      · simp [h1, h2]
      · simp [h1, h2]
  | trans h1 h2 ih1 ih2 =>
      intro hnd k
      rw [ih1 hnd k, ih2 (((h1.map Prod.fst).nodup_iff).mp hnd) k]

lemma jcsFields_ofList (l : List (String × Json)) :
    jcsFields (JsonFields.ofList l) =
      l.map (fun kv => (kv.1, kv.2.isUndef, jcsCanonicalise kv.2)) := by
  induction l with
  | nil => rfl
  | cons kv rest ih =>
      obtain ⟨k, v⟩ := kv
      simp [JsonFields.ofList, jcsFields, ih]

lemma jcsFields_keys (l : List (String × Json)) :
    (jcsFields (JsonFields.ofList l)).map Prod.fst = l.map Prod.fst := by
  rw [jcsFields_ofList, List.map_map]
  rfl


lemma jcsEmittedKeys_sorted (fields : List (String × Json)) :
    List.Pairwise keyLeProp (jcsEmittedKeys fields) := by
  unfold jcsEmittedKeys jcsObjKeys
  exact (sortKeys_sorted _).filter _

/-- C4: in every object serialization, the emitted key sequence respects
UTF-16 code-unit order — a key `k1` with `k1 < k2` always appears at a
smaller index than `k2` — and the canonical output of an object is invariant
under permutation of its (duplicate-free) field insertion order. -/
theorem jcs_key_order_and_determinism :
    (∀ (fields : List (String × Json)) (k1 k2 : String) (i j : Nat)
        (hi : i < (jcsEmittedKeys fields).length)
        (hj : j < (jcsEmittedKeys fields).length),
        utf16Lt k1 k2 = true →
        (jcsEmittedKeys fields).get ⟨i, hi⟩ = k1 →
        (jcsEmittedKeys fields).get ⟨j, hj⟩ = k2 →
        i < j)
    ∧ (∀ (fields fields' : List (String × Json)),
        fields.Perm fields' → (fields.map Prod.fst).Nodup →
        jcsCanonicalise (Json.objL fields) = jcsCanonicalise (Json.objL fields')) := by
  constructor
  · intro fields k1 k2 i j hi hj hlt hk1 hk2
    by_contra hij
    have hps := jcsEmittedKeys_sorted fields
    rw [List.pairwise_iff_get] at hps
    rcases Nat.lt_or_ge j i with hji | hij2
    · have hle := hps ⟨j, hj⟩ ⟨i, hi⟩ hji
      rw [hk1, hk2] at hle
      have hf : unitsLe (utf16Units k2) (utf16Units k1) = false := unitsLt_not_le hlt
      have hle2 : unitsLe (utf16Units k2) (utf16Units k1) = true := hle
      rw [hf] at hle2
      exact Bool.false_ne_true hle2
    · have hij3 : i = j := by omega
      subst hij3
      rw [hk1] at hk2
      subst hk2
      rw [utf16Lt, unitsLt_irrefl] at hlt
      exact Bool.false_ne_true hlt
  · intro fields fields' hperm hnd
    simp only [Json.objL, jcsCanonicalise]
    have hcanon : (jcsFields (JsonFields.ofList fields)).Perm
        (jcsFields (JsonFields.ofList fields')) := by
      rw [jcsFields_ofList, jcsFields_ofList]
      exact hperm.map _
    have hnd' : ((jcsFields (JsonFields.ofList fields)).map Prod.fst).Nodup := by
      rw [jcsFields_keys]; exact hnd
    have hfind := assocFind_perm hcanon hnd'
    have hkeys : sortKeys ((jcsFields (JsonFields.ofList fields)).map Prod.fst)
        = sortKeys ((jcsFields (JsonFields.ofList fields')).map Prod.fst) :=
      sortKeys_congr_perm (hcanon.map Prod.fst)
    have hobj : jcsObjKeys (jcsFields (JsonFields.ofList fields))
        = jcsObjKeys (jcsFields (JsonFields.ofList fields')) := by
      unfold jcsObjKeys
      rw [hkeys]
      exact List.filter_congr (fun k _ => by rw [hfind k])
    have hpairs : (jcsObjKeys (jcsFields (JsonFields.ofList fields'))).map
          (jcsPair (jcsFields (JsonFields.ofList fields)))
        = (jcsObjKeys (jcsFields (JsonFields.ofList fields'))).map
          (jcsPair (jcsFields (JsonFields.ofList fields'))) :=
      List.map_congr_left (fun k _ => by unfold jcsPair; rw [hfind k])
    rw [hobj, hpairs]


/-- C7: an HTTP 4xx response other than 429, carrying a parseable
`{"error":{...}}` body, produces exactly one HTTP request, no sleep, and a
typed `ElydoraError` with that response's status, code, message and
request id; a structured `ElydoraError`, once raised, is never retried. -/
theorem nonretryable_typed_error (responses : Nat → FetchOutcome)
    (maxRetries : Nat) (res : HttpResp) (b : Json)
    (hr : responses 0 = .resp res)
    (h4 : 400 ≤ res.status) (hlt : res.status < 500) (h429 : res.status ≠ 429)
    (hb : res.body = some b)
    (htr : jsTruthy (jsonGet b "error") = true) :
    requestLoop responses maxRetries =
      ⟨.error (.elydora res.status (jsonGet (jsonGet b "error") "code")
          (jsonGet (jsonGet b "error") "message")
          (jsonGet (jsonGet b "error") "request_id")
          (jsonGet (jsonGet b "error") "details")),
        1, []⟩ := by
  have hhr : handleResponse res =
      .error (.elydora res.status (jsonGet (jsonGet b "error") "code")
        (jsonGet (jsonGet b "error") "message")
        (jsonGet (jsonGet b "error") "request_id")
        (jsonGet (jsonGet b "error") "details")) := by
    unfold handleResponse
    rw [if_neg (show ¬ (200 ≤ res.status ∧ res.status ≤ 299) by omega), hb]
    simp [htr]
  have hstep : attemptStep (responses 0) 0 maxRetries none =
      .done (.error (.elydora res.status (jsonGet (jsonGet b "error") "code")
        (jsonGet (jsonGet b "error") "message")
        (jsonGet (jsonGet b "error") "request_id")
        (jsonGet (jsonGet b "error") "details"))) := by
    rw [hr]
    unfold attemptStep
    dsimp only
    rw [if_neg (show ¬ (0 < maxRetries ∧ (res.status = 429 ∨ 500 ≤ res.status)) by
      rintro ⟨-, hc | hc⟩
      · exact h429 hc
      · omega)]
    rw [hhr]
  unfold requestLoop
  rw [requestGo, hstep]


lemma requestGo_delays_extend (responses : Nat → FetchOutcome) (maxRetries : Nat) :
    ∀ (fuel attempt : Nat) (lastErr : Option SdkError) (reqs : Nat)
      (acc : List DelayVal),
      ∃ t, (requestGo responses maxRetries fuel attempt lastErr reqs acc).delays
        = acc ++ t := by
  intro fuel
  induction fuel with
  | zero =>
      intro attempt lastErr reqs acc
      exact ⟨[], by simp [requestGo]⟩
  | succ fuel ih =>
      intro attempt lastErr reqs acc
      rw [requestGo]
      cases hs : attemptStep (responses attempt) attempt maxRetries lastErr with
      | done r => exact ⟨[], by simp⟩
      | retry newErr d =>
          obtain ⟨t, ht⟩ := ih (attempt + 1) newErr (reqs + 1) (acc ++ [d])
          exact ⟨[d] ++ t, by rw [ht]; simp⟩

lemma requestGo_delays_front (responses : Nat → FetchOutcome) (maxRetries : Nat) :
    ∀ (n fuel attempt : Nat) (lastErr : Option SdkError) (reqs : Nat)
      (acc : List DelayVal),
      (∀ i, i < n → isRetryable (responses (attempt + i)) = true) →
      attempt + n ≤ maxRetries →
      maxRetries + 1 = attempt + fuel →
      ∃ tail, (requestGo responses maxRetries fuel attempt lastErr reqs acc).delays
        = acc ++ (List.range n).map
            (fun i => retryDelay (outcomeRetryAfter (responses (attempt + i)))
              (attempt + i)) ++ tail := by
  intro n
  induction n with
  | zero =>
      intro fuel attempt lastErr reqs acc _ _ _
      obtain ⟨t, ht⟩ := requestGo_delays_extend responses maxRetries fuel attempt lastErr reqs acc
      exact ⟨t, by simp [ht]⟩
  | succ n ih =>
      intro fuel attempt lastErr reqs acc hretry hle hfuel
      cases fuel with
      | zero => omega
      | succ fuel =>
          have h0 := hretry 0 (by omega)
          rcases hro : responses attempt with msg | res
          · rw [Nat.add_zero, hro] at h0
            simp [isRetryable] at h0
          · rw [Nat.add_zero, hro] at h0
            simp only [isRetryable, Bool.or_eq_true, decide_eq_true_eq] at h0
            have hcond : attempt < maxRetries ∧ (res.status = 429 ∨ 500 ≤ res.status) :=
              ⟨by omega, h0⟩
            have hstep : attemptStep (responses attempt) attempt maxRetries lastErr =
                .retry lastErr (retryDelay res.retryAfter attempt) := by
              rw [hro]
              unfold attemptStep
              dsimp only
              rw [if_pos hcond]
            rw [requestGo, hstep]
            obtain ⟨tail, htail⟩ := ih fuel (attempt + 1) lastErr (reqs + 1)
              (acc ++ [retryDelay res.retryAfter attempt])
              (fun i hi => by
                have hh := hretry (i + 1) (by omega)
                rwa [show attempt + (i + 1) = attempt + 1 + i by omega] at hh)
              (by omega) (by omega)
            refine ⟨tail, ?_⟩
            rw [htail]
            have hfun : (fun i => retryDelay
                  (outcomeRetryAfter (responses (attempt + 1 + i))) (attempt + 1 + i))
                = (fun i => retryDelay
                  (outcomeRetryAfter (responses (attempt + (i + 1)))) (attempt + (i + 1))) :=
              funext (fun i => by rw [show attempt + 1 + i = attempt + (i + 1) by omega])
            rw [hfun]
            rw [List.range_succ_eq_map, List.map_cons, List.map_map]
            simp only [List.append_assoc, List.cons_append, List.nil_append,
              Nat.add_zero, hro]
            rfl


/-- C8 (counterexample): with `maxRetries = 1` and a 503 response whose
`Retry-After` header is present but not an integer (`"abc"`), the sleep
before attempt 1 is the `NaN` of `parseInt("abc") * 1000` — not the
exponential backoff `min(1000 * 2^0, 10000) = 1000` ms the claim requires. -/
theorem retry_after_noninteger_not_backoff :
    (requestLoop c8CexResponses 1).delays = [DelayVal.nan]
    ∧ [DelayVal.nan] ≠ [DelayVal.ms 1000]
    ∧ min (1000 * 2 ^ 0) 10000 = 1000 := by
  refine ⟨by decide, by decide, by decide⟩

/-- C8 (amended): for every retried attempt `n ≥ 1` following a 429/5xx
response, the sleep before attempt `n` is `retryDelay` of the previous
response's `Retry-After` header at index `n-1`, which is: `k × 1000` ms when
the header is a nonempty string whose `parseInt` value is `k`; the backoff
`min(1000 × 2^(n-1), 10000)` ms when the header is absent or empty; and the
`NaN` of `parseInt(header) * 1000` when the header is nonempty but has no
parseable integer prefix. -/
theorem retry_delay_schedule (responses : Nat → FetchOutcome) (maxRetries n : Nat)
    (hn : 1 ≤ n) (hmax : n ≤ maxRetries)
    (hretry : ∀ i, i < n → isRetryable (responses i) = true) :
    (requestLoop responses maxRetries).delays[n - 1]? =
      some (retryDelay (outcomeRetryAfter (responses (n - 1))) (n - 1))
    ∧ (∀ m, retryDelay none m = .ms (backoffMs m))
    ∧ (∀ m, retryDelay (some "") m = .ms (backoffMs m))
    ∧ (∀ m, backoffMs m = min (1000 * 2 ^ m) 10000)
    ∧ (∀ s m k, s ≠ "" → jsParseInt s = some k →
        retryDelay (some s) m = .ms (k * 1000))
    ∧ (∀ s m, s ≠ "" → jsParseInt s = none → retryDelay (some s) m = .nan) := by
  refine ⟨?_, fun m => rfl, fun m => rfl, fun m => rfl, ?_, ?_⟩
  · obtain ⟨tail, ht⟩ := requestGo_delays_front responses maxRetries n
      (maxRetries + 1) 0 none 0 []
      (fun i hi => by simpa using hretry i hi) (by omega) (by omega)
    unfold requestLoop
    rw [ht, List.nil_append]
    have hb : n - 1 < ((List.range n).map
        (fun i => retryDelay (outcomeRetryAfter (responses (0 + i))) (0 + i))).length := by
      simp
      omega
    rw [List.getElem?_append_left hb]
    simp only [List.getElem?_map, List.getElem?_range (show n - 1 < n by omega),
      Option.map_some]
    simp
  · intro s m k hs hk
    simp [retryDelay, hs, hk]
  · intro s m hs hk
    simp [retryDelay, hs, hk]


lemma hexRoundtrip {d : Nat} (h : d < 16) : hexCharVal (hexDigitChar d) = d := by
  interval_cases d <;> decide

lemma uuidTimestamp_uuidv7 (now : Nat) (random : List Nat)
    (h : now < 2 ^ 48) : uuidTimestamp (uuidv7 now random) = now := by
  have hdata : uuidTimestamp (uuidv7 now random) = hexVal
      [hexDigitChar ((now / 2 ^ 40 % 256) / 16), hexDigitChar ((now / 2 ^ 40 % 256) % 16),
       hexDigitChar ((now / 2 ^ 32 % 256) / 16), hexDigitChar ((now / 2 ^ 32 % 256) % 16),
       hexDigitChar ((now / 2 ^ 24 % 256) / 16), hexDigitChar ((now / 2 ^ 24 % 256) % 16),
       hexDigitChar ((now / 2 ^ 16 % 256) / 16), hexDigitChar ((now / 2 ^ 16 % 256) % 16),
       hexDigitChar ((now / 2 ^ 8 % 256) / 16), hexDigitChar ((now / 2 ^ 8 % 256) % 16),
       hexDigitChar ((now % 256) / 16), hexDigitChar ((now % 256) % 16)] := rfl
  rw [hdata]
  simp only [hexVal, List.foldl_cons, List.foldl_nil]
  rw [hexRoundtrip (show (now / 2 ^ 40 % 256) / 16 < 16 by omega),
      hexRoundtrip (show (now / 2 ^ 40 % 256) % 16 < 16 by omega),
      hexRoundtrip (show (now / 2 ^ 32 % 256) / 16 < 16 by omega),
      hexRoundtrip (show (now / 2 ^ 32 % 256) % 16 < 16 by omega),
      hexRoundtrip (show (now / 2 ^ 24 % 256) / 16 < 16 by omega),
      hexRoundtrip (show (now / 2 ^ 24 % 256) % 16 < 16 by omega),
      hexRoundtrip (show (now / 2 ^ 16 % 256) / 16 < 16 by omega),
      hexRoundtrip (show (now / 2 ^ 16 % 256) % 16 < 16 by omega),
      hexRoundtrip (show (now / 2 ^ 8 % 256) / 16 < 16 by omega),
      hexRoundtrip (show (now / 2 ^ 8 % 256) % 16 < 16 by omega),
      hexRoundtrip (show (now % 256) / 16 < 16 by omega),
      hexRoundtrip (show (now % 256) % 16 < 16 by omega)]
  have e40 : (2 : Nat) ^ 40 = 1099511627776 := by norm_num
  have e32 : (2 : Nat) ^ 32 = 4294967296 := by norm_num
  have e24 : (2 : Nat) ^ 24 = 16777216 := by norm_num
  have e16 : (2 : Nat) ^ 16 = 65536 := by norm_num
  have e8 : (2 : Nat) ^ 8 = 256 := by norm_num
  have e48 : (2 : Nat) ^ 48 = 281474976710656 := by norm_num
  rw [e40, e32, e24, e16, e8] at *
  rw [e48] at h
  omega


/-- C9 (counterexample): two successive builds on the same client whose
`Date.now()` readings fall in the same millisecond produce operation ids
with identical UUIDv7 timestamp fields (here with different random bits, so
the ids differ) — the sequence is not strictly increasing in UUIDv7
timestamp order. -/
theorem uuid_same_ms_not_increasing :
    createOperation wPrim wClient wEnv1 wParams1 = .ok (wEOR1, wState1)
    ∧ createOperation wPrim wState1 wEnv2 wParams2 = .ok (wEOR2, wState2)
    ∧ uuidTimestamp wEOR1.operation_id = uuidTimestamp wEOR2.operation_id
    ∧ wEOR1.operation_id ≠ wEOR2.operation_id := by
  refine ⟨rfl, rfl, by decide, by decide⟩

/-- C9 (amended): within a single client, successive successful builds have
operation ids that are strictly increasing in UUIDv7 timestamp order
whenever the `Date.now()` reading inside `uuidv7()` strictly increases
between the calls; within one millisecond only the random bits differ, and
no ordering is guaranteed. -/
theorem uuid_timestamp_monotone (prim : List Nat → List Nat → List Nat)
    (s : ClientState) (env1 env2 : BuildEnv) (p1 p2 : CreateOperationParams)
    (e1 e2 : EOR) (s1 s2 : ClientState)
    (h1 : createOperation prim s env1 p1 = .ok (e1, s1))
    (h2 : createOperation prim s1 env2 p2 = .ok (e2, s2))
    (hc : env1.uuidNowMs < env2.uuidNowMs) (hb : env2.uuidNowMs < 2 ^ 48) :
    uuidTimestamp e1.operation_id < uuidTimestamp e2.operation_id := by
  obtain ⟨sig1, _, he1, _⟩ := (createOperation_ok_iff prim s env1 p1 e1 s1).mp h1
  obtain ⟨sig2, _, he2, _⟩ := (createOperation_ok_iff prim s1 env2 p2 e2 s2).mp h2
  subst he1 he2
  simp only [builtEOR]
  rw [uuidTimestamp_uuidv7 _ _ (by omega), uuidTimestamp_uuidv7 _ _ hb]
  exact hc

theorem uuid_timestamp_monotone_witness :
    uuidTimestamp wEOR1.operation_id < uuidTimestamp wEOR3.operation_id :=
  uuid_timestamp_monotone wPrim wClient wEnv1 wEnv3 wParams1 wParams2
    wEOR1 wEOR3 wState1 wState3 rfl rfl (by decide) (by decide)

/-- C6 (counterexample): a seed whose base64url decoding is 3 bytes long
makes `signEd25519` fail with Node's generic crypto-import error — not with
a typed `ElydoraError` carrying code `VALIDATION_ERROR`; and a 44-character
seed decoding to 33 bytes does not fail at all — the PKCS8 structure is
complete after 48 bytes, OpenSSL ignores the trailing byte, and signing
succeeds using the first 32 decoded bytes. -/
theorem sign_malformed_seed_untyped_error :
    (base64urlDecode "AAAA").length = 3
    ∧ signEd25519 wPrim "AAAA" [] = .error (.generic "Failed to read private key")
    ∧ isTypedValidationError (signEd25519 wPrim "AAAA" []) = false
    ∧ (base64urlDecode wSeed44).length = 33
    ∧ signEd25519 wPrim wSeed44 [] = .ok "" := by
  refine ⟨by decide, rfl, rfl, by decide, rfl⟩

/-- C6 (amended): the signer performs no explicit length validation and
raises no typed `VALIDATION_ERROR`.  `signEd25519` and `derivePublicKey`
throw Node's generic crypto error exactly when the decoded seed has fewer
than 32 bytes (the PKCS8 structure is then truncated); for a seed decoding
to 32 bytes or more the import succeeds — an over-long seed is silently
truncated to its first 32 decoded bytes — and signing never throws. -/
theorem seed_length_failure_behavior (prim : List Nat → List Nat → List Nat)
    (pubPrim : List Nat → List Nat) (s : String) (data : List Nat) :
    ((base64urlDecode s).length < 32 →
      signEd25519 prim s data = .error (.generic "Failed to read private key")
      ∧ derivePublicKey pubPrim s = .error (.generic "Failed to read private key"))
    ∧ (32 ≤ (base64urlDecode s).length →
      signEd25519 prim s data =
        .ok (base64urlEncode (prim ((base64urlDecode s).take 32) data))
      ∧ derivePublicKey pubPrim s =
        .ok (base64urlEncode (pubPrim ((base64urlDecode s).take 32)))) := by
  have hkey : ∀ r : List Nat,
      (pkcs8Ed25519Header ++ r).take 16 = pkcs8Ed25519Header := fun r => by
    rw [show (16 : Nat) = pkcs8Ed25519Header.length from rfl, List.take_left]
  have hp : pkcs8Ed25519Header.length = 16 := rfl
  constructor
  · intro hlt
    unfold signEd25519 derivePublicKey importPrivateKey createPrivateKeyDer
    rw [if_neg (show ¬ ((pkcs8Ed25519Header ++ base64urlDecode s).take 16 =
        pkcs8Ed25519Header ∧ 48 ≤ (pkcs8Ed25519Header ++ base64urlDecode s).length) by
      rintro ⟨-, hlen⟩
      rw [List.length_append] at hlen
      omega)]
    exact ⟨rfl, rfl⟩
  · intro hge
    unfold signEd25519 derivePublicKey importPrivateKey createPrivateKeyDer
    rw [if_pos ⟨hkey _, by rw [List.length_append]; omega⟩]
    rw [show (16 : Nat) = pkcs8Ed25519Header.length from rfl, List.drop_left]
    exact ⟨rfl, rfl⟩

theorem seed_length_failure_behavior_witness :
    ((base64urlDecode "AAAA").length < 32
      ∧ signEd25519 wPrim "AAAA" [] = .error (.generic "Failed to read private key"))
    ∧ (32 ≤ (base64urlDecode wSeed).length
      ∧ signEd25519 wPrim wSeed [] =
          .ok (base64urlEncode (wPrim ((base64urlDecode wSeed).take 32) [])))
    ∧ (32 ≤ (base64urlDecode wSeed44).length
      ∧ derivePublicKey wPubPrim wSeed44 =
          .ok (base64urlEncode (wPubPrim ((base64urlDecode wSeed44).take 32)))) := by
  have h1 := (seed_length_failure_behavior wPrim wPubPrim "AAAA" []).1 (by decide)
  have h2 := (seed_length_failure_behavior wPrim wPubPrim wSeed []).2 (by decide)
  have h3 := (seed_length_failure_behavior wPrim wPubPrim wSeed44 []).2 (by decide)
  exact ⟨⟨by decide, h1.1⟩, ⟨by decide, h2.1⟩, ⟨by decide, h3.2⟩⟩


theorem chain_linkage_witness :
    wEOR2.prev_chain_hash =
      sha256Base64url (wEOR1.prev_chain_hash ++ "|" ++ wEOR1.payload_hash ++ "|" ++
        wEOR1.operation_id ++ "|" ++ toString wEOR1.issued_at)
    ∧ wState1.prevChainHash = wEOR2.prev_chain_hash := by
  have h := chain_linkage wPrim wClient wEnv1 wEnv2 wParams1 wParams2
    wEOR1 wEOR2 wState1 wState2 rfl rfl
  exact ⟨h.1, h.2.1⟩

theorem payload_hash_postcondition_witness :
    wEOR2.payload_hash =
      base64urlEncode (sha256 (utf8Encode (jcsCanonicalise wEOR2.payload)))
    ∧ wEOR2.payload = Json.null := by
  have h := payload_hash_postcondition wPrim wState1 wEnv2 wParams2 wEOR2 wState2 rfl
  exact ⟨h.1, h.2 rfl⟩

theorem createOperation_frame_witness :
    wState1.orgId = wClient.orgId ∧ wState1.kid = wClient.kid
    ∧ wEOR1.org_id = wClient.orgId ∧ wEOR1.agent_pubkey_kid = wClient.kid := by
  have h := createOperation_frame wPrim wClient wEnv1 wParams1 wEOR1 wState1 rfl
  obtain ⟨ha, hb, hc, hd, he, hf, hg, hh, hi, hj, hk, hl, hm, hn⟩ := h
  exact ⟨ha, hg, hj, hm⟩

theorem nonretryable_typed_error_witness :
    requestLoop c7Responses 3 =
      ⟨.error (.elydora 400 (.str "VALIDATION_ERROR") (.str "bad payload")
        (.str "r1") .undef), 1, []⟩ := by
  have h := nonretryable_typed_error c7Responses 3 c7Resp c7Body rfl
    (by decide) (by decide) (by decide) rfl (by decide)
  exact h

theorem retry_delay_schedule_witness :
    (requestLoop c8WResponses 2).delays[0]? =
      some (retryDelay (outcomeRetryAfter (c8WResponses 0)) 0)
    ∧ (requestLoop c8WResponses 2).delays[1]? =
      some (retryDelay (outcomeRetryAfter (c8WResponses 1)) 1)
    ∧ retryDelay (some "2") 0 = .ms 2000
    ∧ retryDelay none 1 = .ms (backoffMs 1)
    ∧ backoffMs 1 = min (1000 * 2 ^ 1) 10000 := by
  have h1 := retry_delay_schedule c8WResponses 2 1 (by omega) (by omega) (by decide)
  have h2 := retry_delay_schedule c8WResponses 2 2 (by omega) (by omega) (by decide)
  refine ⟨h1.1, h2.1, ?_, h2.2.1 1, h2.2.2.2.1 1⟩
  exact h2.2.2.2.2.1 "2" 0 2 (by decide) (by decide)

theorem jcs_key_order_and_determinism_witness :
    (0 : Nat) < 1
    ∧ jcsCanonicalise (Json.objL c4Fields) = jcsCanonicalise (Json.objL c4FieldsPerm) := by
  constructor
  · exact jcs_key_order_and_determinism.1 c4Fields "a" "b" 0 1
      (by decide) (by decide) (by decide) (by decide) (by decide)
  · exact jcs_key_order_and_determinism.2 c4Fields c4FieldsPerm
      (by unfold c4Fields c4FieldsPerm; exact List.Perm.swap _ _ [])
      (by decide)

end Elydora
